import Mathlib

/-!
# Verification of the Fetch-Custom-News pipeline (`src/api.py`)

A shallow embedding of the news aggregation pipeline in `src/api.py`:
the static source tables, the rank calculator `get_dynamic_rank`, the
cached geocoder `geocode_location`, article enrichment `enrich_article`,
RSS parsing `parse_rss_feed`, the aggregation pipeline `fetch_news`, and
the threshold endpoints.

External collaborators (the HTTP fetch, the `feedparser` result, the spaCy
NER model, the Nominatim geocoding provider, and the current UTC time) are
modelled as a deterministic environment `Env` of total oracle functions;
Python dict values built by the code are modelled as association lists,
Python `datetime` values by their two observations used in the code (the
UTC date and the ISO string), and Python floats by rationals (the code
only stores and passes coordinates through, never computes with them).

Theorems about the claims of the specification follow the definitions.
-/

namespace NewsApi

/-! ## String utilities

Python string operations used by the code: `str.lower()`, the substring
test `in`, string `<=` (code-point lexicographic), and the HTML tag
stripping `re.sub("<[^<]+?>", "", s)`.
-/

/-- Python `str.lower()` on a string, modelled character-wise. -/
def lower (s : String) : String :=
  ⟨s.toList.map Char.toLower⟩

/-- Python `needle in hay` substring test on char lists:
`needle` occurs contiguously in `hay`. -/
def substrCheckL (needle : List Char) : List Char → Bool
  | [] => needle.isEmpty
  | c :: rest => needle.isPrefixOf (c :: rest) || substrCheckL needle rest

/-- Python `needle in hay` substring test on strings. -/
def substrCheck (needle hay : String) : Bool :=
  substrCheckL needle.toList hay.toList

/-- Code-point lexicographic `<=` on char lists: Python string comparison. -/
def listLe : List Char → List Char → Bool
  | [], _ => true
  | _ :: _, [] => false
  | a :: as, b :: bs =>
    if a < b then true
    else if b < a then false
    else listLe as bs

/-- Python string `<=` (code-point lexicographic). -/
def strLe (a b : String) : Bool :=
  listLe a.toList b.toList

/-- Match the regex fragment `[^<]+?>` lazily against `u`, having already
consumed `seen` characters of the class `[^<]+`.  Returns the remainder
after the closing `>` of the shortest match, or `none`. -/
def tagMatch : List Char → Nat → Option (List Char)
  | [], _ => none
  | c :: rest, seen =>
    if c = '<' then none
    else if c = '>' ∧ 1 ≤ seen then some rest
    else tagMatch rest (seen + 1)

theorem tagMatch_length : ∀ (u : List Char) (seen : Nat) (v : List Char),
    tagMatch u seen = some v → v.length < u.length := by
  intro u
  induction u with
  | nil => intro seen v h; simp [tagMatch] at h
  | cons c rest ih =>
      intro seen v h
      simp only [tagMatch] at h
      split at h
      · exact absurd h (by simp)
      · split at h
        · cases h; simp
        · exact Nat.lt_trans (ih _ _ h) (Nat.lt_succ_self _)

/-- One left-to-right pass of `re.sub("<[^<]+?>", "", s)` over the
characters: each non-overlapping lazy match of `<[^<]+?>` is removed. -/
def stripAux (l : List Char) : List Char :=
  match l with
  | [] => []
  | c :: rest =>
    if c = '<' then
      match h : tagMatch rest 0 with
      | some rest' => stripAux rest'
      | none => c :: stripAux rest
    else c :: stripAux rest
termination_by l.length
decreasing_by
  · exact Nat.lt_succ_of_lt (tagMatch_length rest 0 _ h)
  · exact Nat.lt_succ_self _
  · exact Nat.lt_succ_self _

/-- Python `re.sub("<[^<]+?>", "", s)` used for HTML tag stripping. -/
def stripTags (s : String) : String :=
  ⟨stripAux s.toList⟩

/-! ## Static tables (`src/api.py` lines 16-33 and 84-99) -/

/-- `RSS_FEEDS`: the configured sources, in insertion order. -/
def RSS_FEEDS : List (String × String) :=
  [("BBC News", "http://feeds.bbci.co.uk/news/rss.xml"),
   ("Al Jazeera English", "https://www.aljazeera.com/xml/rss/all.xml"),
   ("Dawn", "https://www.dawn.com/feeds/home"),
   ("The News International", "https://www.thenews.com.pk/rss/1/1"),
   ("Geo News", "https://www.geo.tv/rss/1/1")]

/-- `SOURCE_RANK`: static base rank per source. -/
def SOURCE_RANK : List (String × Nat) :=
  [("BBC News", 95),
   ("Al Jazeera English", 90),
   ("Dawn", 85),
   ("The News International", 80),
   ("Geo News", 75)]

/-- The popularity factor dict inlined in `get_dynamic_rank`. -/
def popularity_factor_table : List (String × Nat) :=
  [("BBC News", 95),
   ("Al Jazeera English", 88),
   ("Dawn", 70),
   ("The News International", 65),
   ("Geo News", 60)]

/-- The credibility factor dict inlined in `get_dynamic_rank`. -/
def credibility_factor_table : List (String × Nat) :=
  [("BBC News", 97),
   ("Al Jazeera English", 90),
   ("Dawn", 80),
   ("The News International", 75),
   ("Geo News", 70)]

/-- `get_dynamic_rank(source_name)` (`src/api.py` lines 84-101):
each factor defaults to 50 for an unknown source; the combined rank is
`int((base + popularity + credibility) / 3)` — truncation of a
non-negative value, i.e. the floor, so `Nat` division — clamped by
`max(0, min(100, _))`. -/
def get_dynamic_rank (source_name : String) : Nat :=
  let base_rank := (SOURCE_RANK.lookup source_name).getD 50
  let popularity_factor := (popularity_factor_table.lookup source_name).getD 50
  let credibility_factor := (credibility_factor_table.lookup source_name).getD 50
  let final_rank := (base_rank + popularity_factor + credibility_factor) / 3
  max 0 (min 100 final_rank)

/-! ## Geocoding (`src/api.py` lines 38-65)

The geocode cache `geo_cache` stores Python dicts
`{"lat": ..., "lon": ..., "name": place}`; we model such a dict as an
association list of string keys to values, a value being a number
(coordinates, modelled as rationals) or a string.  The Nominatim
provider is an oracle: for each place name it either resolves (the
truthy `location` object, observed through `.latitude`/`.longitude`),
returns no match (`None`), or raises (any exception). -/

/-- A value stored in a place dict: a coordinate number or a string. -/
inductive PVal where
  | num (q : ℚ)
  | str (s : String)
deriving DecidableEq, Repr

/-- A place dict, as built by `geocode_location`: an association list. -/
abbrev PlaceEntry := List (String × PVal)

/-- The dict literal `{"lat": lat, "lon": lon, "name": place}` built on a
successful geocode (`src/api.py` lines 57-61). -/
def mkPlaceEntry (lat lon : ℚ) (place : String) : PlaceEntry :=
  [("lat", PVal.num lat), ("lon", PVal.num lon), ("name", PVal.str place)]

/-- The keys of a place dict, in order. -/
def entryKeys (e : PlaceEntry) : List String :=
  e.map Prod.fst

/-- Outcome of one external call to the geocoding provider for a name:
a resolved coordinate pair, no match (`None`), or a raised exception. -/
inductive GeoOutcome where
  | success (lat lon : ℚ)
  | noMatch
  | geoError
deriving DecidableEq, Repr

/-- The external geocoding provider, as a deterministic oracle. -/
abbrev Provider := String → GeoOutcome

/-- The process-wide `geo_cache` dict: place name to place dict. -/
abbrev GeoCache := List (String × PlaceEntry)

/-- `geocode_location(place)` (`src/api.py` lines 49-65), with the cache
passed explicitly and the provider as an oracle.  Returns the result
(`None` on no match or exception), the updated cache, and the number of
external provider calls made (0 on a cache hit, 1 otherwise). -/
def geocode_location (provider : Provider) (cache : GeoCache) (place : String) :
    Option PlaceEntry × GeoCache × Nat :=
  match cache.lookup place with
  | some v => (some v, cache, 0)
  | none =>
    match provider place with
    | GeoOutcome.success lat lon =>
        let entry := mkPlaceEntry lat lon place
        (some entry, (place, entry) :: cache, 1)
    | GeoOutcome.noMatch => (none, cache, 1)
    | GeoOutcome.geoError => (none, cache, 1)

/-! ## Articles, feed entries and the environment -/

/-- A Python `datetime` value, observed as the code observes it: its UTC
date (`.date()`, as a day index) and its ISO rendering (`.isoformat()`). -/
structure DateTime where
  day : Nat
  iso : String
deriving DecidableEq, Repr

/-- A `feedparser` entry, with the optional attributes the code reads.
A `none` models a missing attribute (or, for the parsed times, a falsy
value). -/
structure Entry where
  published : Option DateTime := none
  updated : Option DateTime := none
  title : Option String := none
  link : Option String := none
  summary : Option String := none
  description : Option String := none
deriving DecidableEq, Repr

/-- An article dict.  `parse_rss_feed` builds it with the first five
keys; `enrich_article` adds `places` and `fetch_news` adds `rank` and
`region_type` — a `none` models an absent key. -/
structure Article where
  title : String
  description : String
  url : String
  publishedAt : String
  source : String
  places : Option (List PlaceEntry) := none
  rank : Option Nat := none
  region_type : Option String := none
deriving DecidableEq, Repr

/-- `article["rank"]` as read by the sort and the threshold filters
(always present there, having been set by `fetch_news`). -/
def rankVal (a : Article) : Nat :=
  a.rank.getD 0

/-- The deterministic environment of external collaborators for one
request: the fetched-and-parsed entries per feed URL (`none` models a
network or parse failure, i.e. an exception before the entry loop), the
spaCy NER oracle `extract_locations`, the geocoding provider, and the
current UTC time. -/
structure Env where
  fetchResult : String → Option (List Entry)
  ner : String → List String
  provider : Provider
  now : DateTime

/-! ## RSS parsing (`src/api.py` lines 107-145) -/

/-- The publish timestamp of an entry (`src/api.py` lines 118-124):
the parsed published time, else the parsed updated time, else the
current time. -/
def resolve_published (now : DateTime) (e : Entry) : DateTime :=
  match e.published with
  | some d => d
  | none =>
    match e.updated with
    | some d => d
    | none => now

/-- The article dict appended for an entry that passed the date filter
(`src/api.py` lines 127-141). -/
def entryArticle (source_name : String) (published_date : DateTime) (e : Entry) : Article :=
  { title := e.title.getD ""
    description :=
      match e.summary with
      | some s => stripTags s
      | none =>
        match e.description with
        | some s => stripTags s
        | none => ""
    url := e.link.getD ""
    publishedAt := published_date.iso ++ "Z"
    source := source_name }

/-- The entry loop of `parse_rss_feed` (`src/api.py` lines 117-141):
over the first 20 entries, resolve the publish time and keep exactly the
entries whose UTC date equals today's. -/
def parse_entries (now : DateTime) (source_name : String) (entries : List Entry) :
    List Article :=
  (entries.take 20).filterMap fun e =>
    let published_date := resolve_published now e
    if published_date.day = now.day then
      some (entryArticle source_name published_date e)
    else
      none

/-- `parse_rss_feed(feed_url, source_name)` (`src/api.py` lines 107-145):
on any fetch or parse failure the exception handler returns `[]`. -/
def parse_rss_feed (env : Env) (feed_url source_name : String) : List Article :=
  match env.fetchResult feed_url with
  | none => []
  | some entries => parse_entries env.now source_name entries

/-! ## Enrichment (`src/api.py` lines 68-78) -/

/-- `enrich_article(article)` (`src/api.py` lines 68-78): extract places
from title and description, geocode each in order threading the cache,
collect the successful results, and set the `places` key. -/
def enrich_article (env : Env) (cache : GeoCache) (a : Article) :
    Article × GeoCache :=
  let text := a.title ++ " " ++ a.description
  let places := env.ner text
  let acc := places.foldl
    (fun acc p =>
      match geocode_location env.provider acc.2 p with
      | (some g, c', _) => (acc.1 ++ [g], c')
      | (none, c', _) => (acc.1, c'))
    (([] : List PlaceEntry), cache)
  ({ a with places := some acc.1 }, acc.2)

/-- The geocoding loop of `enrich_article`, written as plain recursion:
geocode each extracted place in order, keep the successes. -/
def collectGeo (provider : Provider) : GeoCache → List String → List PlaceEntry × GeoCache
  | c, [] => ([], c)
  | c, p :: rest =>
    match geocode_location provider c p with
    | (some g, c', _) =>
        let r := collectGeo provider c' rest
        (g :: r.1, r.2)
    | (none, c', _) => collectGeo provider c' rest

/-! ## The aggregation pipeline (`src/api.py` lines 151-194) -/

/-- The region classification of `fetch_news` (`src/api.py` lines
166-180): with a location filter, `within_city` when the lowercased
filter occurs in the lowercased title+description text, else
`within_region` when it occurs in the lowercase of any configured source
name, else `other`; without a filter, `global`. -/
def regionTypeOf (location : Option String) (a : Article) : String :=
  match location with
  | none => "global"
  | some loc =>
    let location_lower := lower loc
    let text := lower (a.title ++ " " ++ a.description)
    if substrCheck location_lower text then "within_city"
    else if RSS_FEEDS.any fun kv => substrCheck location_lower (lower kv.1) then
      "within_region"
    else "other"

/-- The per-article body of the second loop of `fetch_news`
(`src/api.py` lines 158-190): compute the rank from the source, enrich,
classify the region, set the `rank` and `region_type` keys, and default
`places` to `[]` when absent. -/
def processArticle (env : Env) (location : Option String) (cache : GeoCache)
    (a : Article) : Article × GeoCache :=
  let rank := get_dynamic_rank a.source
  let ac := enrich_article env cache a
  let region_type := regionTypeOf location ac.1
  let a3 := { ac.1 with rank := some rank, region_type := some region_type }
  let a4 :=
    match a3.places with
    | none => { a3 with places := some [] }
    | some _ => a3
  (a4, ac.2)

/-- The second loop of `fetch_news`: process each fetched article in
order, threading the geocode cache, appending to `results`. -/
def processAll (env : Env) (location : Option String) :
    GeoCache → List Article → List Article × GeoCache
  | c, [] => ([], c)
  | c, a :: rest =>
    let pc := processArticle env location c a
    let r := processAll env location pc.2 rest
    (pc.1 :: r.1, r.2)

/-- The sort comparator of `src/api.py` line 193: ascending on the key
`(-rank, publishedAt)`, i.e. rank descending then `publishedAt`
ascending by Python string comparison. -/
def artLe (a b : Article) : Bool :=
  decide ((-(rankVal a : Int)) < -(rankVal b : Int))
  || (decide ((-(rankVal a : Int)) = -(rankVal b : Int)) && strLe a.publishedAt b.publishedAt)

/-- `fetch_news` up to (but not including) the final sort, generalized
over the feed table: gather `parse_rss_feed` output for every configured
source (first loop, lines 152-155), then process every article (second
loop, lines 157-190). -/
def fetch_results_feeds (feeds : List (String × String)) (env : Env)
    (cache : GeoCache) (location : Option String) : List Article × GeoCache :=
  let all_articles := (feeds.map fun kv => parse_rss_feed env kv.2 kv.1).flatten
  processAll env location cache all_articles

/-- `fetch_news(location)` (`src/api.py` lines 151-194), generalized
over the feed table: the processed articles sorted by
`(-rank, publishedAt)` ascending. -/
def fetch_news_feeds (feeds : List (String × String)) (env : Env)
    (cache : GeoCache) (location : Option String) : List Article × GeoCache :=
  let rc := fetch_results_feeds feeds env cache location
  (rc.1.mergeSort artLe, rc.2)

/-- `fetch_news` before its final sort, on the configured `RSS_FEEDS`. -/
def fetch_results (env : Env) (cache : GeoCache) (location : Option String) :
    List Article × GeoCache :=
  fetch_results_feeds RSS_FEEDS env cache location

/-- `fetch_news(location)` (`src/api.py` lines 151-194). -/
def fetch_news (env : Env) (cache : GeoCache) (location : Option String) :
    List Article × GeoCache :=
  fetch_news_feeds RSS_FEEDS env cache location

/-! ## Endpoints (`src/api.py` lines 200-242): the `news` lists -/

/-- The article list of `GET /news/all` (`src/api.py` lines 200-210). -/
def get_all_news (env : Env) (cache : GeoCache) (location : Option String) :
    List Article :=
  (fetch_news env cache location).1

/-- The article list of `GET /news/critical` (`src/api.py` lines
213-226): the fetched list filtered to `rank >= 80`. -/
def get_critical_news (env : Env) (cache : GeoCache) (location : Option String) :
    List Article :=
  (fetch_news env cache location).1.filter fun n => 80 ≤ rankVal n

/-- The article list of `GET /news/most_critical` (`src/api.py` lines
229-242): the fetched list filtered to `rank >= 90`. -/
def get_most_critical_news (env : Env) (cache : GeoCache) (location : Option String) :
    List Article :=
  (fetch_news env cache location).1.filter fun n => 90 ≤ rankVal n

/-! ## Concrete test fixtures

Stub environments used to evaluate the pipeline on concrete inputs:
deterministic fetch results, NER output and provider outcomes, following
the end-to-end scenario of the specification (a "Dawn" feed with one
article mentioning Karachi, resolved to (24.86, 67.01)). -/

/-- A fixed "current UTC time" for the stubs (day index 20000). -/
def now0 : DateTime := ⟨20000, "2024-10-10T13:00:00"⟩

/-- A feed entry published today mentioning Karachi. -/
def karachiEntry : Entry :=
  { published := some ⟨20000, "2024-10-10T12:00:00"⟩
    title := some "Flooding hits Karachi" }

/-- Environment: only the Dawn feed yields an entry, the NER extracts
"Karachi", and the provider resolves every name to (24.86, 67.01). -/
def env0 : Env :=
  { fetchResult := fun url =>
      if url = "https://www.dawn.com/feeds/home" then some [karachiEntry] else none
    ner := fun _ => ["Karachi"]
    provider := fun _ => GeoOutcome.success (1243 / 50) (6701 / 100)
    now := now0 }

/-- The place dict the pipeline attaches for Karachi under `env0`. -/
def karachiPlace : PlaceEntry := mkPlaceEntry (1243 / 50) (6701 / 100) "Karachi"

/-- The article `fetch_news` produces under `env0` with no location. -/
def karachiOut : Article :=
  { title := "Flooding hits Karachi"
    description := ""
    url := ""
    publishedAt := "2024-10-10T12:00:00Z"
    source := "Dawn"
    places := some [karachiPlace]
    rank := some 78
    region_type := some "global" }

/-- A feed entry published today whose text never mentions "dawn". -/
def stormEntry : Entry :=
  { published := some ⟨20000, "2024-10-10T12:00:00"⟩
    title := some "Storm" }

/-- Environment: only the BBC feed yields `stormEntry`; the NER extracts
nothing and the provider never matches. -/
def envStorm : Env :=
  { fetchResult := fun url =>
      if url = "http://feeds.bbci.co.uk/news/rss.xml" then some [stormEntry] else none
    ner := fun _ => []
    provider := fun _ => GeoOutcome.noMatch
    now := now0 }

/-- The article `fetch_news` produces under `envStorm` with the location
filter "dawn". -/
def stormOut : Article :=
  { title := "Storm"
    description := ""
    url := ""
    publishedAt := "2024-10-10T12:00:00Z"
    source := "BBC News"
    places := some []
    rank := some 95
    region_type := some "within_region" }

/-- The article `fetch_news` produces under `envStorm` with no location
filter. -/
def stormOutGlobal : Article :=
  { stormOut with region_type := some "global" }

/-- A provider that always fails to match. -/
def provFail : Provider := fun _ => GeoOutcome.noMatch

/-- A provider that resolves every name to (1, 2). -/
def provOK : Provider := fun _ => GeoOutcome.success 1 2

/-- A feed entry published today, for the entry-cap counterexample. -/
def todayEntry : Entry :=
  { published := some ⟨20000, "2024-10-10T12:00:00"⟩
    title := some "t" }

/-- Environment: like `envStorm` but the NER extracts a place name that
the provider cannot resolve. -/
def envNoGeo : Env :=
  { envStorm with ner := fun _ => ["Atlantis"] }

/-- Well-formedness of the geocode cache: every stored dict has exactly
the keys `lat`, `lon`, `name` (as every dict `geocode_location` stores
does). -/
def CacheWF (c : GeoCache) : Prop :=
  ∀ kv ∈ c, entryKeys kv.2 = ["lat", "lon", "name"]

/-! ## Helper lemmas -/

theorem lookup_mem {β : Type} :
    ∀ (l : List (String × β)) (s : String) (v : β),
      l.lookup s = some v → (s, v) ∈ l := by
  intro l
  induction l with
  | nil => intro s v h; simp [List.lookup] at h
  | cons kv rest ih =>
      intro s v h
      rw [List.lookup] at h
      split at h
      · rename_i hbeq
        cases h
        have : s = kv.1 := by simpa using hbeq
        rw [this]
        exact List.mem_cons_self _ _
      · exact List.mem_cons_of_mem _ (ih s v h)

theorem lookup_val_mem {β : Type} (l : List (String × β)) (s : String) (v : β)
    (h : l.lookup s = some v) : v ∈ l.map Prod.snd :=
  List.mem_map.mpr ⟨(s, v), lookup_mem l s v h, rfl⟩

theorem filterMap_ite {α β : Type} (p : α → Prop) [DecidablePred p] (f : α → β) :
    ∀ l : List α,
      (l.filterMap fun e => if p e then some (f e) else none) =
        (l.filter fun e => decide (p e)).map f := by
  intro l
  induction l with
  | nil => rfl
  | cons x xs ih =>
      by_cases hx : p x
      · simp [List.filterMap_cons, List.filter_cons, hx, ih]
      · simp [List.filterMap_cons, List.filter_cons, hx, ih]

/-! ### The sort comparator is a total preorder -/

theorem listLe_total : ∀ a b : List Char, (listLe a b || listLe b a) = true := by
  intro a
  induction a with
  | nil => intro b; simp [listLe]
  | cons x xs ih =>
      intro b
      cases b with
      | nil => simp [listLe]
      | cons y ys =>
          simp only [listLe]
          rcases lt_trichotomy x y with h | h | h
          · simp [h]
          · subst h
            simpa [lt_irrefl] using ih ys
          · simp [h, asymm h]

theorem listLe_trans : ∀ a b c : List Char,
    listLe a b = true → listLe b c = true → listLe a c = true := by
  intro a
  induction a with
  | nil => intro b c _ _; simp [listLe]
  | cons x xs ih =>
      intro b c hab hbc
      cases b with
      | nil => simp [listLe] at hab
      | cons y ys =>
          cases c with
          | nil => simp [listLe] at hbc
          | cons z zs =>
              simp only [listLe] at hab hbc ⊢
              rcases lt_trichotomy x y with hxy | hxy | hxy
              · rcases lt_trichotomy y z with hyz | hyz | hyz
                · simp [lt_trans hxy hyz]
                · subst hyz; simp [hxy]
                · rcases lt_trichotomy x z with hxz | hxz | hxz
                  · simp [hxz]
                  · subst hxz
                    simp [hyz, asymm hyz] at hbc
                  · simp [hyz, asymm hyz] at hbc
              · subst hxy
                rcases lt_trichotomy x z with hxz | hxz | hxz
                · simp [hxz]
                · subst hxz
                  simp [lt_irrefl] at hab hbc ⊢
                  exact ih _ _ hab hbc
                · simp [hxz, asymm hxz] at hbc
              · simp [hxy, asymm hxy] at hab

theorem strLe_trans {a b c : String} (h1 : strLe a b = true) (h2 : strLe b c = true) :
    strLe a c = true :=
  listLe_trans _ _ _ h1 h2

theorem strLe_total (a b : String) : (strLe a b || strLe b a) = true :=
  listLe_total _ _

theorem artLe_trans : ∀ a b c : Article,
    artLe a b = true → artLe b c = true → artLe a c = true := by
  intro a b c hab hbc
  simp only [artLe, Bool.or_eq_true, Bool.and_eq_true, decide_eq_true_eq] at hab hbc ⊢
  rcases hab with hab | ⟨hab, hab'⟩
  · rcases hbc with hbc | ⟨hbc, _⟩
    · exact Or.inl (lt_trans hab hbc)
    · exact Or.inl (hbc ▸ hab)
  · rcases hbc with hbc | ⟨hbc, hbc'⟩
    · exact Or.inl (hab ▸ hbc)
    · exact Or.inr ⟨hab.trans hbc, strLe_trans hab' hbc'⟩

theorem artLe_total : ∀ a b : Article, (artLe a b || artLe b a) = true := by
  intro a b
  simp only [artLe, Bool.or_eq_true, Bool.and_eq_true, decide_eq_true_eq]
  rcases lt_trichotomy (-(rankVal a : Int)) (-(rankVal b : Int)) with h | h | h
  · exact Or.inl (Or.inl h)
  · have := strLe_total a.publishedAt b.publishedAt
    rcases Bool.or_eq_true_iff.mp this with h' | h'
    · exact Or.inl (Or.inr ⟨h, h'⟩)
    · exact Or.inr (Or.inr ⟨h.symm, h'⟩)
  · exact Or.inr (Or.inl h)

theorem foldl_geo_collect (provider : Provider) :
    ∀ (ps : List String) (l : List PlaceEntry) (c : GeoCache),
      ps.foldl (fun acc p =>
        match geocode_location provider acc.2 p with
        | (some g, c', _) => (acc.1 ++ [g], c')
        | (none, c', _) => (acc.1, c')) (l, c) =
      (l ++ (collectGeo provider c ps).1, (collectGeo provider c ps).2) := by
  intro ps
  induction ps with
  | nil => intro l c; simp [collectGeo]
  | cons p rest ih =>
      intro l c
      rw [List.foldl_cons, collectGeo]
      rcases hg : geocode_location provider c p with ⟨r, c', n⟩
      cases r with
      | some g =>
          simp only [hg, ih]
          simp [List.append_assoc]
      | none =>
          simp only [hg, ih]

theorem enrich_article_eq (env : Env) (cache : GeoCache) (a : Article) :
    enrich_article env cache a =
      ({ a with places := some (collectGeo env.provider cache
          (env.ner (a.title ++ " " ++ a.description))).1 },
        (collectGeo env.provider cache (env.ner (a.title ++ " " ++ a.description))).2) := by
  unfold enrich_article
  dsimp only
  rw [foldl_geo_collect]
  simp

theorem processArticle_eq (env : Env) (loc : Option String) (c : GeoCache) (a : Article) :
    processArticle env loc c a =
      ({ a with
          places := some (collectGeo env.provider c
            (env.ner (a.title ++ " " ++ a.description))).1,
          rank := some (get_dynamic_rank a.source),
          region_type := some (regionTypeOf loc
            { a with places := some (collectGeo env.provider c
                (env.ner (a.title ++ " " ++ a.description))).1 }) },
        (collectGeo env.provider c (env.ner (a.title ++ " " ++ a.description))).2) := by
  unfold processArticle
  rw [enrich_article_eq]

theorem regionTypeOf_congr (loc : Option String) (x y : Article)
    (h1 : x.title = y.title) (h2 : x.description = y.description) :
    regionTypeOf loc x = regionTypeOf loc y := by
  cases loc <;> simp [regionTypeOf, h1, h2]

theorem processAll_mem (env : Env) (loc : Option String) :
    ∀ (raws : List Article) (c : GeoCache) (x : Article),
      x ∈ (processAll env loc c raws).1 →
      ∃ (c' : GeoCache) (a : Article), x = (processArticle env loc c' a).1 := by
  intro raws
  induction raws with
  | nil => intro c x hx; simp [processAll] at hx
  | cons a rest ih =>
      intro c x hx
      simp only [processAll] at hx
      rcases List.mem_cons.mp hx with h | h
      · exact ⟨c, a, h⟩
      · exact ih _ x h

theorem processArticle_region (env : Env) (loc : Option String) (c : GeoCache)
    (a : Article) :
    ((processArticle env loc c a).1).region_type =
      some (regionTypeOf loc (processArticle env loc c a).1) := by
  rw [processArticle_eq]
  exact congrArg some (regionTypeOf_congr loc _ _ rfl rfl)

theorem geocode_wf (provider : Provider) (c : GeoCache) (p : String) (hwf : CacheWF c) :
    (∀ e, (geocode_location provider c p).1 = some e →
      entryKeys e = ["lat", "lon", "name"]) ∧
    CacheWF (geocode_location provider c p).2.1 := by
  cases h : c.lookup p with
  | some v =>
      constructor
      · intro e he
        simp only [geocode_location, h] at he
        cases he
        exact hwf (p, v) (lookup_mem _ _ _ h)
      · simpa [geocode_location, h] using hwf
  | none =>
      cases hp : provider p with
      | success lat lon =>
          constructor
          · intro e he
            simp only [geocode_location, h, hp] at he
            cases he
            rfl
          · intro kv hkv
            simp only [geocode_location, h, hp, List.mem_cons] at hkv
            rcases hkv with rfl | hkv
            · rfl
            · exact hwf _ hkv
      | noMatch =>
          exact ⟨fun e he => by simp [geocode_location, h, hp] at he,
            by simpa [geocode_location, h, hp] using hwf⟩
      | geoError =>
          exact ⟨fun e he => by simp [geocode_location, h, hp] at he,
            by simpa [geocode_location, h, hp] using hwf⟩

theorem collectGeo_wf (provider : Provider) :
    ∀ (ps : List String) (c : GeoCache), CacheWF c →
      (∀ e ∈ (collectGeo provider c ps).1, entryKeys e = ["lat", "lon", "name"]) ∧
      CacheWF (collectGeo provider c ps).2 := by
  intro ps
  induction ps with
  | nil =>
      intro c hwf
      exact ⟨fun e he => by simp [collectGeo] at he, by simpa [collectGeo] using hwf⟩
  | cons p rest ih =>
      intro c hwf
      have hg := geocode_wf provider c p hwf
      rcases hgeo : geocode_location provider c p with ⟨r, c', n⟩
      rw [hgeo] at hg
      cases r with
      | some g =>
          have hr := ih c' hg.2
          constructor
          · intro e he
            simp only [collectGeo, hgeo, List.mem_cons] at he
            rcases he with rfl | he
            · exact hg.1 e rfl
            · exact hr.1 e he
          · simp only [collectGeo, hgeo]
            exact hr.2
      | none =>
          have hr := ih c' hg.2
          constructor
          · intro e he
            simp only [collectGeo, hgeo] at he
            exact hr.1 e he
          · simp only [collectGeo, hgeo]
            exact hr.2

theorem processAll_placesWF (env : Env) (loc : Option String) :
    ∀ (raws : List Article) (c : GeoCache), CacheWF c →
      ∀ x ∈ (processAll env loc c raws).1, ∀ e ∈ x.places.getD [],
        entryKeys e = ["lat", "lon", "name"] := by
  intro raws
  induction raws with
  | nil => intro c _ x hx; simp [processAll] at hx
  | cons a rest ih =>
      intro c hwf x hx
      simp only [processAll] at hx
      rcases List.mem_cons.mp hx with rfl | hx
      · intro e he
        rw [processArticle_eq] at he
        simp only [Option.getD_some] at he
        exact (collectGeo_wf env.provider _ c hwf).1 e he
      · have hwf2 : CacheWF (processArticle env loc c a).2 := by
          rw [processArticle_eq]
          exact (collectGeo_wf env.provider _ c hwf).2
        exact ih _ hwf2 x hx

theorem collectGeo_all_fail (provider : Provider) :
    ∀ (ps : List String) (c : GeoCache),
      (∀ p ∈ ps, c.lookup p = none ∧
        ∀ lat lon : ℚ, provider p ≠ GeoOutcome.success lat lon) →
      collectGeo provider c ps = ([], c) := by
  intro ps
  induction ps with
  | nil => intro c _; rfl
  | cons p rest ih =>
      intro c h
      have hp := h p (List.mem_cons_self p rest)
      have hg : geocode_location provider c p = (none, c, 1) := by
        cases hpv : provider p with
        | success lat lon => exact absurd hpv (hp.2 lat lon)
        | noMatch => simp [geocode_location, hp.1, hpv]
        | geoError => simp [geocode_location, hp.1, hpv]
      simp only [collectGeo, hg]
      exact ih c fun q hq => h q (List.mem_cons_of_mem _ hq)

/-! ## Claims -/

/-- C1: for every source identifier `s`, `get_dynamic_rank s` is
`floor((base + popularity + credibility) / 3)` (the clamp to `[0,100]`
is vacuous because that floor never exceeds 100), it is at most 100
(and at least 0 by its `Nat` type), it is 50 whenever `s` is in none of
the three static tables, and the rank the pipeline attaches to an
article is computed from the article's `source` field alone. -/
theorem rank_floor_clamped_default (s : String) :
    get_dynamic_rank s =
      ((SOURCE_RANK.lookup s).getD 50 + (popularity_factor_table.lookup s).getD 50 +
        (credibility_factor_table.lookup s).getD 50) / 3 ∧
    get_dynamic_rank s ≤ 100 ∧
    (SOURCE_RANK.lookup s = none ∧ popularity_factor_table.lookup s = none ∧
        credibility_factor_table.lookup s = none →
      get_dynamic_rank s = 50) ∧
    (∀ (env : Env) (loc : Option String) (c : GeoCache) (a : Article),
      a.source = s → ((processArticle env loc c a).1).rank = some (get_dynamic_rank s)) := by
  have hb : (SOURCE_RANK.lookup s).getD 50 ≤ 95 := by
    cases h : SOURCE_RANK.lookup s with
    | none => simp
    | some v =>
        have hv := lookup_val_mem _ _ _ h
        have hall : ∀ v ∈ SOURCE_RANK.map Prod.snd, v ≤ 95 := by decide
        simpa using hall v hv
  have hp : (popularity_factor_table.lookup s).getD 50 ≤ 95 := by
    cases h : popularity_factor_table.lookup s with
    | none => simp
    | some v =>
        have hv := lookup_val_mem _ _ _ h
        have hall : ∀ v ∈ popularity_factor_table.map Prod.snd, v ≤ 95 := by decide
        simpa using hall v hv
  have hc : (credibility_factor_table.lookup s).getD 50 ≤ 97 := by
    cases h : credibility_factor_table.lookup s with
    | none => simp
    | some v =>
        have hv := lookup_val_mem _ _ _ h
        have hall : ∀ v ∈ credibility_factor_table.map Prod.snd, v ≤ 97 := by decide
        simpa using hall v hv
  have hdef : get_dynamic_rank s =
      max 0 (min 100 (((SOURCE_RANK.lookup s).getD 50 +
        (popularity_factor_table.lookup s).getD 50 +
        (credibility_factor_table.lookup s).getD 50) / 3)) := rfl
  refine ⟨?_, ?_, ?_, ?_⟩
  · rw [hdef]; omega
  · rw [hdef]; omega
  · rintro ⟨h1, h2, h3⟩
    rw [hdef, h1, h2, h3]
    rfl
  · intro env loc c a ha
    subst ha
    rfl

/-- Witness for C1 at a source identifier not in the tables and at a
configured one. -/
theorem rank_floor_clamped_default_witness :
    get_dynamic_rank "Unknown Daily" = 50 ∧ get_dynamic_rank "BBC News" ≤ 100 := by
  exact ⟨(rank_floor_clamped_default "Unknown Daily").2.2.1 (by decide),
    (rank_floor_clamped_default "BBC News").2.1⟩

/-- C4, counterexample to "at most one external lookup per distinct
name": a name the provider does not match is not cached
(`src/api.py` lines 53-65), so a second call for the same name performs
a second external lookup — two lookups, not at most one. -/
theorem geocode_twice_cex :
    (geocode_location provFail [] "Karachi").2.2 +
      (geocode_location provFail
        (geocode_location provFail [] "Karachi").2.1 "Karachi").2.2 = 2 ∧
    ¬((geocode_location provFail [] "Karachi").2.2 +
      (geocode_location provFail
        (geocode_location provFail [] "Karachi").2.1 "Karachi").2.2 ≤ 1) := by
  decide

/-- C4 (amended): calling `geocode_location` twice with the same place
name returns identical results, and whenever the first call produces a
result (a cache hit or a successful lookup) at most one external lookup
occurs across both calls; only a name whose lookup fails is looked up
again on the second call. -/
theorem geocode_idempotent (provider : Provider) (cache : GeoCache) (place : String) :
    (geocode_location provider cache place).1 =
      (geocode_location provider
        (geocode_location provider cache place).2.1 place).1 ∧
    ((geocode_location provider cache place).1.isSome = true →
      (geocode_location provider cache place).2.2 +
        (geocode_location provider
          (geocode_location provider cache place).2.1 place).2.2 ≤ 1) := by
  cases h : cache.lookup place with
  | some v => simp [geocode_location, h]
  | none =>
      cases hp : provider place with
      | success lat lon => simp [geocode_location, h, hp, List.lookup]
      | noMatch => simp [geocode_location, h, hp]
      | geoError => simp [geocode_location, h, hp]

/-- Witness for C4 (amended) at a successfully resolving provider. -/
theorem geocode_idempotent_witness :
    (geocode_location provOK [] "Karachi").1 =
      (geocode_location provOK
        (geocode_location provOK [] "Karachi").2.1 "Karachi").1 ∧
    (geocode_location provOK [] "Karachi").2.2 +
      (geocode_location provOK
        (geocode_location provOK [] "Karachi").2.1 "Karachi").2.2 ≤ 1 := by
  exact ⟨(geocode_idempotent provOK [] "Karachi").1,
    (geocode_idempotent provOK [] "Karachi").2 (by decide)⟩

/-- C5: on a cache miss, a provider no-match or a provider exception
makes `geocode_location` return no result with the cache left unchanged
(so a later call may retry), and the embedding returns rather than
raising; a success stores the dict `{"lat", "lon", "name": place}` in
the cache keyed by the original input name. -/
theorem geocode_error_no_poison (provider : Provider) (cache : GeoCache)
    (place : String) (hmiss : cache.lookup place = none) :
    ((provider place = GeoOutcome.noMatch ∨ provider place = GeoOutcome.geoError) →
      (geocode_location provider cache place).1 = none ∧
      (geocode_location provider cache place).2.1 = cache) ∧
    (∀ lat lon : ℚ, provider place = GeoOutcome.success lat lon →
      (geocode_location provider cache place).1 = some (mkPlaceEntry lat lon place) ∧
      (geocode_location provider cache place).2.1 =
        (place, mkPlaceEntry lat lon place) :: cache ∧
      ((geocode_location provider cache place).2.1).lookup place =
        some (mkPlaceEntry lat lon place)) := by
  constructor
  · rintro (hp | hp) <;> simp [geocode_location, hmiss, hp]
  · intro lat lon hp
    simp [geocode_location, hmiss, hp, List.lookup]

/-- Witness for C5 at a failing and at a succeeding provider. -/
theorem geocode_error_no_poison_witness :
    (geocode_location provFail [] "X").1 = none ∧
    (geocode_location provFail [] "X").2.1 = [] ∧
    ((geocode_location provOK [] "X").2.1).lookup "X" =
      some (mkPlaceEntry 1 2 "X") := by
  exact ⟨((geocode_error_no_poison provFail [] "X" rfl).1 (Or.inl rfl)).1,
    ((geocode_error_no_poison provFail [] "X" rfl).1 (Or.inl rfl)).2,
    ((geocode_error_no_poison provOK [] "X" rfl).2 1 2 rfl).2.2⟩

/-- C7, counterexample to "every feed entry is included iff its resolved
date is today": `parse_rss_feed` reads only the first 20 entries
(`src/api.py` line 117), so a feed of 21 entries all dated today yields
only 20 articles. -/
theorem parse_entries_cap_cex :
    (resolve_published now0 todayEntry).day = now0.day ∧
    (List.replicate 21 todayEntry).length = 21 ∧
    (parse_entries now0 "Dawn" (List.replicate 21 todayEntry)).length = 20 := by
  decide

/-- C7 (amended): among the first 20 entries in feed order, an entry is
included exactly when its resolved publish timestamp has the current UTC
date (so a today entry among them is kept and a yesterday entry is
dropped, with the boundary at the UTC date change), and the timestamp
resolves as published time, else updated time, else the current time;
entries beyond the first 20 are excluded regardless of date. -/
theorem parse_entries_today (now : DateTime) (src : String) (entries : List Entry) :
    parse_entries now src entries =
      ((entries.take 20).filter fun e =>
          decide ((resolve_published now e).day = now.day)).map
        (fun e => entryArticle src (resolve_published now e) e) ∧
    ∀ e : Entry, resolve_published now e = e.published.getD (e.updated.getD now) := by
  constructor
  · exact filterMap_ite (fun e => (resolve_published now e).day = now.day)
      (fun e => entryArticle src (resolve_published now e) e) (entries.take 20)
  · intro e
    rcases e with ⟨pub, upd, _, _, _, _⟩
    cases pub <;> cases upd <;> rfl

/-- C10: `enrich_article` changes no pre-existing field of the article —
title, description, url, publishedAt, source (and rank and region_type,
absent at that stage) are returned unchanged — and its only effect on
the article is to set `places` to the successfully geocoded places in
extraction order (`collectGeo`), returning the updated cache. -/
theorem enrich_article_frame (env : Env) (cache : GeoCache) (a : Article) :
    (enrich_article env cache a).1.title = a.title ∧
    (enrich_article env cache a).1.description = a.description ∧
    (enrich_article env cache a).1.url = a.url ∧
    (enrich_article env cache a).1.publishedAt = a.publishedAt ∧
    (enrich_article env cache a).1.source = a.source ∧
    (enrich_article env cache a).1.rank = a.rank ∧
    (enrich_article env cache a).1.region_type = a.region_type ∧
    (enrich_article env cache a).1.places =
      some (collectGeo env.provider cache
        (env.ner (a.title ++ " " ++ a.description))).1 ∧
    (enrich_article env cache a).2 =
      (collectGeo env.provider cache
        (env.ner (a.title ++ " " ++ a.description))).2 := by
  have hfold := foldl_geo_collect env.provider
    (env.ner (a.title ++ " " ++ a.description)) [] cache
  refine ⟨rfl, rfl, rfl, rfl, rfl, rfl, rfl, ?_, ?_⟩
  · show some ((env.ner (a.title ++ " " ++ a.description)).foldl _ ([], cache)).1 = _
    rw [hfold]
    simp
  · show ((env.ner (a.title ++ " " ++ a.description)).foldl _ ([], cache)).2 = _
    rw [hfold]

/-- C3: the list returned by `fetch_news` is sorted with rank descending
as primary key and, among equal ranks, `publishedAt` ascending by string
comparison (`strLe`); it is a permutation of the processed article list
(the sort of `src/api.py` line 193 reorders, never adds or drops). -/
theorem fetch_news_sorted (env : Env) (cache : GeoCache) (loc : Option String) :
    List.Pairwise (fun a b : Article =>
      rankVal b < rankVal a ∨
        (rankVal a = rankVal b ∧ strLe a.publishedAt b.publishedAt = true))
      (fetch_news env cache loc).1 ∧
    (fetch_news env cache loc).1.Perm (fetch_results env cache loc).1 := by
  constructor
  · have hs := @List.sorted_mergeSort Article artLe artLe_trans artLe_total
      (fetch_results env cache loc).1
    have heq : (fetch_news env cache loc).1 =
        (fetch_results env cache loc).1.mergeSort artLe := rfl
    rw [heq]
    refine hs.imp ?_
    intro a b hab
    simp only [artLe, Bool.or_eq_true, Bool.and_eq_true, decide_eq_true_eq] at hab
    rcases hab with h | ⟨h, h'⟩
    · left
      have : (rankVal b : Int) < (rankVal a : Int) := by omega
      exact_mod_cast this
    · right
      refine ⟨?_, h'⟩
      have : (rankVal a : Int) = (rankVal b : Int) := by omega
      exact_mod_cast this
  · exact List.mergeSort_perm _ _

/-- C6: `/news/critical` is exactly `/news/all` filtered to rank ≥ 80
and `/news/most_critical` is exactly `/news/critical` filtered to
rank ≥ 90; each is an order-preserving sublist (hence subset) of the
previous list, over the same fetched environment and cache. -/
theorem critical_post_filters (env : Env) (cache : GeoCache) (loc : Option String) :
    get_critical_news env cache loc =
      (get_all_news env cache loc).filter (fun n => decide (80 ≤ rankVal n)) ∧
    (get_critical_news env cache loc).Sublist (get_all_news env cache loc) ∧
    get_most_critical_news env cache loc =
      (get_critical_news env cache loc).filter (fun n => decide (90 ≤ rankVal n)) ∧
    (get_most_critical_news env cache loc).Sublist (get_critical_news env cache loc) ∧
    (∀ a ∈ get_critical_news env cache loc,
      80 ≤ rankVal a ∧ a ∈ get_all_news env cache loc) ∧
    (∀ a ∈ get_most_critical_news env cache loc,
      90 ≤ rankVal a ∧ a ∈ get_critical_news env cache loc) := by
  have hcrit : get_critical_news env cache loc =
      (get_all_news env cache loc).filter (fun n => decide (80 ≤ rankVal n)) := rfl
  have hmost : get_most_critical_news env cache loc =
      (get_all_news env cache loc).filter (fun n => decide (90 ≤ rankVal n)) := rfl
  have hcomp : (get_critical_news env cache loc).filter (fun n => decide (90 ≤ rankVal n)) =
      (get_all_news env cache loc).filter (fun n => decide (90 ≤ rankVal n)) := by
    rw [hcrit, List.filter_filter]
    refine List.filter_congr ?_
    intro a _
    by_cases h : 90 ≤ rankVal a
    · have h8 : 80 ≤ rankVal a := by omega
      simp [h, h8]
    · simp [h]
  refine ⟨hcrit, ?_, ?_, ?_, ?_, ?_⟩
  · rw [hcrit]; exact List.filter_sublist _
  · rw [hmost, ← hcomp]
  · rw [hmost, ← hcomp]; exact List.filter_sublist _
  · intro a ha
    rw [hcrit] at ha
    have h := List.mem_filter.mp ha
    exact ⟨by simpa using h.2, h.1⟩
  · intro a ha
    rw [hmost] at ha
    have h := List.mem_filter.mp ha
    refine ⟨by simpa using h.2, ?_⟩
    rw [hcrit]
    refine List.mem_filter.mpr ⟨h.1, ?_⟩
    have h9 : 90 ≤ rankVal a := by simpa using h.2
    simp
    omega

unseal List.merge List.mergeSort in
/-- Witness for C6: a rank-95 article is in all three lists, and the
subset facts hold for it. -/
theorem critical_post_filters_witness :
    80 ≤ rankVal stormOutGlobal ∧ stormOutGlobal ∈ get_all_news envStorm [] none ∧
    90 ≤ rankVal stormOutGlobal ∧ stormOutGlobal ∈ get_critical_news envStorm [] none := by
  have h := critical_post_filters envStorm [] none
  have hc : stormOutGlobal ∈ get_critical_news envStorm [] none := by decide
  have hm : stormOutGlobal ∈ get_most_critical_news envStorm [] none := by decide
  exact ⟨(h.2.2.2.2.1 _ hc).1, (h.2.2.2.2.1 _ hc).2,
    (h.2.2.2.2.2 _ hm).1, (h.2.2.2.2.2 _ hm).2⟩

unseal List.merge List.mergeSort Rat.mul Rat.inv in
/-- C2, counterexample to "a distance/radius value is attached": on the
specification's own end-to-end scenario (one Dawn article mentioning
Karachi, geocoded to (24.86, 67.01)), the pipeline attaches the place
dict built at `src/api.py` lines 57-61 with exactly the keys `lat`,
`lon`, `name` — no code in `src/api.py` computes a distance, and no
`radius` or distance key exists on the attached entry. -/
theorem places_no_distance_cex :
    (fetch_news env0 [] none).1 = [karachiOut] ∧
    karachiOut.places = some [karachiPlace] ∧
    entryKeys karachiPlace = ["lat", "lon", "name"] ∧
    ¬("radius" ∈ entryKeys karachiPlace) ∧
    ¬("distance" ∈ entryKeys karachiPlace) := by
  decide

unseal List.merge List.mergeSort in
/-- C9, counterexample to "within_region means the filter matches the
article's own source name": under `envStorm` the only article has source
"BBC News" and text "Storm "; the filter "dawn" matches neither, yet the
pipeline classifies it `within_region` because "dawn" matches the
configured source name "Dawn" (`src/api.py` line 175 checks all of
`RSS_FEEDS.keys()`, not the article's source). -/
theorem region_type_cex :
    (fetch_news envStorm [] (some "dawn")).1 = [stormOut] ∧
    stormOut.region_type = some "within_region" ∧
    substrCheck (lower "dawn")
      (lower (stormOut.title ++ " " ++ stormOut.description)) = false ∧
    substrCheck (lower "dawn") (lower stormOut.source) = false := by
  decide

/-- C8: failures are isolated — a failing fetch/parse makes its source
contribute the empty list while every other source is processed
identically (dropping the failing source from the feed table leaves the
whole pipeline output unchanged), and an article all of whose extracted
places fail to geocode gets `places = []` with the cache untouched; the
pipeline itself is a total function returning a list. -/
theorem failure_isolation :
    (∀ (env : Env) (url name : String),
      env.fetchResult url = none → parse_rss_feed env url name = []) ∧
    (∀ (feeds1 feeds2 : List (String × String)) (name url : String) (env : Env)
        (cache : GeoCache) (loc : Option String),
      env.fetchResult url = none →
      fetch_news_feeds (feeds1 ++ (name, url) :: feeds2) env cache loc =
        fetch_news_feeds (feeds1 ++ feeds2) env cache loc) ∧
    (∀ (env : Env) (cache : GeoCache) (a : Article),
      (∀ p ∈ env.ner (a.title ++ " " ++ a.description),
        cache.lookup p = none ∧
          ∀ lat lon : ℚ, env.provider p ≠ GeoOutcome.success lat lon) →
      (enrich_article env cache a).1.places = some [] ∧
      (enrich_article env cache a).2 = cache) := by
  have hparse : ∀ (env : Env) (url name : String),
      env.fetchResult url = none → parse_rss_feed env url name = [] := by
    intro env url name h
    simp [parse_rss_feed, h]
  refine ⟨hparse, ?_, ?_⟩
  · intro feeds1 feeds2 name url env cache loc hfail
    unfold fetch_news_feeds fetch_results_feeds
    have hraw : ((feeds1 ++ (name, url) :: feeds2).map
          fun kv => parse_rss_feed env kv.2 kv.1).flatten =
        ((feeds1 ++ feeds2).map fun kv => parse_rss_feed env kv.2 kv.1).flatten := by
      simp only [List.map_append, List.map_cons, List.flatten_append,
        List.flatten_cons]
      rw [hparse env url name hfail]
      simp
    rw [hraw]
  · intro env cache a hfailall
    rw [enrich_article_eq,
      collectGeo_all_fail env.provider (env.ner (a.title ++ " " ++ a.description))
        cache hfailall]
    exact ⟨rfl, rfl⟩

/-- Witness for C8: dropping the BBC source — whose fetch fails under
`env0` — leaves the pipeline output unchanged, and an article whose only
extracted place cannot be geocoded gets an empty `places` list. -/
theorem failure_isolation_witness :
    fetch_news_feeds RSS_FEEDS env0 [] none =
      fetch_news_feeds
        [("Al Jazeera English", "https://www.aljazeera.com/xml/rss/all.xml"),
         ("Dawn", "https://www.dawn.com/feeds/home"),
         ("The News International", "https://www.thenews.com.pk/rss/1/1"),
         ("Geo News", "https://www.geo.tv/rss/1/1")] env0 [] none ∧
    (enrich_article envNoGeo [] stormOut).1.places = some [] := by
  constructor
  · exact failure_isolation.2.1 []
      [("Al Jazeera English", "https://www.aljazeera.com/xml/rss/all.xml"),
       ("Dawn", "https://www.dawn.com/feeds/home"),
       ("The News International", "https://www.thenews.com.pk/rss/1/1"),
       ("Geo News", "https://www.geo.tv/rss/1/1")]
      "BBC News" "http://feeds.bbci.co.uk/news/rss.xml" env0 [] none (by decide)
  · exact (failure_isolation.2.2 envNoGeo [] stormOut
      (fun p _ => ⟨rfl, fun lat lon h => GeoOutcome.noConfusion h⟩)).1

/-- C9 (amended): every article the pipeline returns carries
`region_type` computed by `regionTypeOf` from its own title+description
text; with a location filter the classification is `within_city` iff the
lowercased filter occurs in the lowercased text, else `within_region`
iff it occurs in the lowercase of some configured source name (not
necessarily the article's own source), else `other`; without a filter it
is `global`. -/
theorem region_type_spec (env : Env) (cache : GeoCache) (loc : Option String) :
    (∀ a ∈ (fetch_news env cache loc).1, a.region_type = some (regionTypeOf loc a)) ∧
    (∀ (l : String) (a : Article),
      (regionTypeOf (some l) a = "within_city" ↔
        substrCheck (lower l) (lower (a.title ++ " " ++ a.description)) = true) ∧
      (regionTypeOf (some l) a = "within_region" ↔
        substrCheck (lower l) (lower (a.title ++ " " ++ a.description)) = false ∧
          (RSS_FEEDS.any fun kv => substrCheck (lower l) (lower kv.1)) = true) ∧
      (regionTypeOf (some l) a = "other" ↔
        substrCheck (lower l) (lower (a.title ++ " " ++ a.description)) = false ∧
          (RSS_FEEDS.any fun kv => substrCheck (lower l) (lower kv.1)) = false)) ∧
    (∀ a : Article, regionTypeOf none a = "global") := by
  refine ⟨?_, ?_, fun a => rfl⟩
  · intro a ha
    have ha' := (List.mergeSort_perm (fetch_results env cache loc).1 artLe).mem_iff.mp ha
    obtain ⟨c', raw, rfl⟩ := processAll_mem env loc _ cache _ ha'
    exact processArticle_region env loc c' raw
  · intro l a
    cases hb1 : substrCheck (lower l) (lower (a.title ++ " " ++ a.description)) <;>
      cases hb2 : RSS_FEEDS.any (fun kv => substrCheck (lower l) (lower kv.1)) <;>
      simp [regionTypeOf, hb1, hb2]

unseal List.merge List.mergeSort in
/-- Witness for C9 (amended) on the concrete `envStorm` run. -/
theorem region_type_spec_witness :
    stormOut.region_type = some (regionTypeOf (some "dawn") stormOut) := by
  exact (region_type_spec envStorm [] (some "dawn")).1 stormOut (by decide)

/-- C2 (amended): every place entry the pipeline attaches to an article
carries exactly the keys `lat`, `lon` and `name` — the resolved
coordinates and the place name — and no distance or radius value, the
haversine computation of the specification being absent from
`src/api.py` (given a well-formed starting cache, e.g. the empty one). -/
theorem places_carry_coords_only (env : Env) (cache : GeoCache) (loc : Option String)
    (hwf : CacheWF cache) :
    ∀ a ∈ (fetch_news env cache loc).1, ∀ e ∈ a.places.getD [],
      entryKeys e = ["lat", "lon", "name"] := by
  intro a ha
  have ha' := (List.mergeSort_perm (fetch_results env cache loc).1 artLe).mem_iff.mp ha
  exact processAll_placesWF env loc _ cache hwf a ha'

unseal List.merge List.mergeSort Rat.mul Rat.inv in
/-- Witness for C2 (amended) on the concrete `env0` run. -/
theorem places_carry_coords_only_witness :
    karachiOut ∈ (fetch_news env0 [] none).1 ∧
    karachiPlace ∈ karachiOut.places.getD [] ∧
    entryKeys karachiPlace = ["lat", "lon", "name"] := by
  have hmem : karachiOut ∈ (fetch_news env0 [] none).1 := by decide
  have hpl : karachiPlace ∈ karachiOut.places.getD [] := by decide
  exact ⟨hmem, hpl,
    places_carry_coords_only env0 [] none (by simp [CacheWF]) karachiOut hmem
      karachiPlace hpl⟩

end NewsApi
